import Mathlib

/-!
# zap-demo: severity routing, pid-file lifecycle and encoder configuration

A shallow embedding of `main.go`: the two level predicates and the Tee core
built by `SetupLogger`, the time and duration encoders configured there, the
rotating writer configured by `getWriter`, and `PidSetup.CreatePidFile` /
`PidSetup.RemovePidFile` over an explicit file-system state of files and
directories, with the steps the logger takes on it.
-/

namespace ZapDemo

/-! ## Severity levels and the Tee core (`SetupLogger`, lines 53-69) -/

/-- A `zapcore.Level` is an `int8`; it is embedded as an integer.  Every
statement below is proved for all integers, hence for all `int8` values. -/
abbrev Level := Int

def DebugLevel : Level := -1
def InfoLevel : Level := 0
def WarnLevel : Level := 1
def ErrorLevel : Level := 2
def DPanicLevel : Level := 3
def PanicLevel : Level := 4
def FatalLevel : Level := 5

/-- The closure `func(lvl zapcore.Level) bool { return lvl < zapcore.WarnLevel }`. -/
def infoLevel (lvl : Level) : Bool := decide (lvl < WarnLevel)

/-- The closure `func(lvl zapcore.Level) bool { return lvl >= zapcore.WarnLevel }`. -/
def warnLevel (lvl : Level) : Bool := decide (lvl ≥ WarnLevel)

/-- The result of `zapcore.NewCore(enc, ws, enab)`: a level enabler and the
writer the core writes to (the encoder is shared and plays no part in routing). -/
structure Core (W : Type) where
  enab : Level → Bool
  out : W

/-- The method `ioCore.Check`: the core adds itself to the checked entry when
its enabler accepts the entry's level. -/
def Core.Check {W : Type} (c : Core W) (lvl : Level) (ce : List W) : List W :=
  if c.enab lvl then ce ++ [c.out] else ce

/-- The method `multiCore.Check` of the core returned by `zapcore.NewTee`:
every core of the tee is asked in order. -/
def teeCheck {W : Type} (cores : List (Core W)) (lvl : Level) (ce : List W) : List W :=
  cores.foldl (fun acc c => c.Check lvl acc) ce

/-- The `zapcore.NewTee(...)` call of `SetupLogger`: the core on the access-log
writer guarded by `infoLevel`, the core on the error-log writer guarded by
`warnLevel`. -/
def teeCores {W : Type} (infoWriter warnWriter : W) : List (Core W) :=
  [⟨infoLevel, infoWriter⟩, ⟨warnLevel, warnWriter⟩]

/-- The writers that receive an event of level `lvl` logged through the Tee
core of `SetupLogger`. -/
def route {W : Type} (infoWriter warnWriter : W) (lvl : Level) : List W :=
  teeCheck (teeCores infoWriter warnWriter) lvl []

/-- The two severity bands of the router. -/
inductive Band
  | normal
  | elevated
  deriving DecidableEq, Repr

/-- The bands an event of level `lvl` is delivered to, the access-log writer
standing for `normal` and the error-log writer for `elevated`. -/
def selectedBands (lvl : Level) : List Band :=
  route Band.normal Band.elevated lvl

/-! ## Text

Go strings and file contents are byte sequences.  They are written here as
lists of characters, one character per byte; every text the program itself
produces (digits, signs, separators) is ASCII. -/

abbrev Str := List Char

/-- The character of a decimal digit `d < 10`. -/
def digitChar (d : Nat) : Char := Char.ofNat (48 + d)

/-- Digits of `n`, most significant first, pushed in front of `acc`. -/
def decimalAux : Nat → Nat → Str → Str
  | 0, _, acc => acc
  | fuel + 1, n, acc =>
      if n < 10 then digitChar n :: acc
      else decimalAux fuel (n / 10) (digitChar (n % 10) :: acc)

/-- The base-10 rendering of a natural number (`"0"` for zero, no leading
zeros otherwise).  The fuel `n + 1` exceeds the number of digits of `n`. -/
def decimal (n : Nat) : Str := decimalAux (n + 1) n []

/-- The call `fmt.Sprintf("%d", n)` for an `int`. -/
def SprintfD (n : Int) : Str :=
  if n < 0 then '-' :: decimal n.natAbs else decimal n.natAbs

/-! ## `time.Time.Format` (the time encoder, lines 42-44) -/

/-- A `time.Time` as `Format` reads it: the civil date and clock in the
time's location (`t.Date()`, `t.Clock()`), the nanosecond within the second
and the zone offset in seconds east of UTC. -/
structure Time where
  year : Int
  month : Nat
  day : Nat
  hour : Nat
  minute : Nat
  second : Nat
  nanosecond : Nat
  zoneOffset : Int
  deriving DecidableEq, Repr

/-- The ranges of the fields that `t.Date()` and `t.Clock()` return. -/
def Time.Valid (t : Time) : Prop :=
  1 ≤ t.month ∧ t.month ≤ 12 ∧ 1 ≤ t.day ∧ t.day ≤ 31 ∧
    t.hour < 24 ∧ t.minute < 60 ∧ t.second < 60 ∧ t.nanosecond < 1000000000

instance (t : Time) : Decidable t.Valid := by
  unfold Time.Valid; infer_instance

/-- The function `appendInt` of package `time`: the decimal form of `x`, padded
with leading zeros to `width` digits, after a minus sign when `x` is negative. -/
def appendInt (x : Int) (width : Nat) : Str :=
  (if x < 0 then ['-'] else []) ++
    (List.replicate (width - (decimal x.natAbs).length) '0' ++ decimal x.natAbs)

/-- The layout elements of package `time` that are modelled: the numeric date
and clock fields, the numeric zone offsets and the fractional seconds.  The
textual elements (`Jan`, `Mon`, `MST`, `PM`), the space-padded `_2` family,
the day of the year `002` and the `Z07` family are left out; each starts with
a character (`J`, `M`, `P`, `p`, `_`, `Z`) or a prefix (`002`) on which such a
layout is told apart from the ones used in this program. -/
inductive StdChunk
  | stdLongYear
  | stdYear
  | stdZeroMonth
  | stdNumMonth
  | stdZeroDay
  | stdDay
  | stdHour
  | stdZeroHour12
  | stdHour12
  | stdZeroMinute
  | stdMinute
  | stdZeroSecond
  | stdSecond
  | stdNumSecondsTz
  | stdNumColonSecondsTZ
  | stdNumTZ
  | stdNumColonTZ
  | stdNumShortTZ
  | stdFracSecond0 (sep : Char) (digits : Nat)
  | stdFracSecond9 (sep : Char) (digits : Nat)
  deriving DecidableEq, Repr

/-- Whether the text starts with a decimal digit (`isDigit(layout, j)`). -/
def isDigit : Str → Bool
  | c :: _ => decide ('0' ≤ c ∧ c ≤ '9')
  | [] => false

/-- The fractional-second element after a separator `sep`: a run of `0`s or
of `9`s that is not followed by another digit. -/
def fracAt (sep : Char) (r : Str) : Option (StdChunk × Str) :=
  match r with
  | ch :: _ =>
      if ch = '0' ∨ ch = '9' then
        if isDigit (r.dropWhile (fun c => c == ch)) then none
        else if ch = '9' then
          some (.stdFracSecond9 sep (r.takeWhile (fun c => c == ch)).length,
            r.dropWhile (fun c => c == ch))
        else
          some (.stdFracSecond0 sep (r.takeWhile (fun c => c == ch)).length,
            r.dropWhile (fun c => c == ch))
      else none
  | [] => none

/-- One iteration of the loop of `nextStdChunk`: the layout element that
starts at the head of the text, with the text after it. -/
def stdAt : Str → Option (StdChunk × Str)
  | '0' :: '1' :: r => some (.stdZeroMonth, r)
  | '0' :: '2' :: r => some (.stdZeroDay, r)
  | '0' :: '3' :: r => some (.stdZeroHour12, r)
  | '0' :: '4' :: r => some (.stdZeroMinute, r)
  | '0' :: '5' :: r => some (.stdZeroSecond, r)
  | '0' :: '6' :: r => some (.stdYear, r)
  | '1' :: '5' :: r => some (.stdHour, r)
  | '1' :: r => some (.stdNumMonth, r)
  | '2' :: '0' :: '0' :: '6' :: r => some (.stdLongYear, r)
  | '2' :: r => some (.stdDay, r)
  | '3' :: r => some (.stdHour12, r)
  | '4' :: r => some (.stdMinute, r)
  | '5' :: r => some (.stdSecond, r)
  | '-' :: r =>
      if "070000".toList.isPrefixOf r then some (.stdNumSecondsTz, r.drop 6)
      else if "07:00:00".toList.isPrefixOf r then some (.stdNumColonSecondsTZ, r.drop 8)
      else if "0700".toList.isPrefixOf r then some (.stdNumTZ, r.drop 4)
      else if "07:00".toList.isPrefixOf r then some (.stdNumColonTZ, r.drop 5)
      else if "07".toList.isPrefixOf r then some (.stdNumShortTZ, r.drop 2)
      else none
  | '.' :: r => fracAt '.' r
  | ',' :: r => fracAt ',' r
  | _ => none

/-- The function `nextStdChunk`: the literal text before the first layout
element, that element (`none` when the layout has no further element) and the
text after it. -/
def nextStdChunk : Str → Str × Option StdChunk × Str
  | [] => ([], none, [])
  | c :: r =>
      match stdAt (c :: r) with
      | some (std, suffix) => ([], some std, suffix)
      | none =>
          match nextStdChunk r with
          | (pre, std, suffix) => (c :: pre, std, suffix)

/-- A numeric zone offset: sign, hours, and as the element asks minutes and
seconds, with or without colons. -/
def appendZone (offset : Int) (colon short seconds : Bool) : Str :=
  let zone := Int.tdiv offset 60
  let z : Int := if zone < 0 then -zone else zone
  let absoffset : Int := if zone < 0 then -offset else offset
  (if zone < 0 then '-' else '+') :: appendInt (Int.tdiv z 60) 2 ++
    ((if colon then [':'] else []) ++
      ((if short then [] else appendInt (Int.tmod z 60) 2) ++
        (if seconds then
          (if colon then [':'] else []) ++ appendInt (Int.tmod absoffset 60) 2
        else [])))

/-- Drops the trailing zeros of a digit string. -/
def trimZeros (s : Str) : Str :=
  (s.reverse.dropWhile (fun c => c == '0')).reverse

/-- The function `appendNano`: the separator and the first `n` of the nine
digits of the nanosecond; with `trim`, trailing zeros and then a bare
separator are dropped. -/
def appendNano (nanosec : Nat) (sep : Char) (n : Nat) (trim : Bool) : Str :=
  if trim && (n == 0 || nanosec == 0) then []
  else if trim then
    match trimZeros ((appendInt nanosec 9).take n) with
    | [] => []
    | ds => sep :: ds
  else sep :: (appendInt nanosec 9).take n

/-- The `switch std` of `Time.appendFormat`: the text of one layout element. -/
def appendStd (t : Time) : StdChunk → Str
  | .stdLongYear => appendInt t.year 4
  | .stdYear => appendInt ((t.year.natAbs % 100 : Nat) : Int) 2
  | .stdZeroMonth => appendInt t.month 2
  | .stdNumMonth => appendInt t.month 0
  | .stdZeroDay => appendInt t.day 2
  | .stdDay => appendInt t.day 0
  | .stdHour => appendInt t.hour 2
  | .stdZeroHour12 => appendInt ((if t.hour % 12 = 0 then 12 else t.hour % 12 : Nat) : Int) 2
  | .stdHour12 => appendInt ((if t.hour % 12 = 0 then 12 else t.hour % 12 : Nat) : Int) 0
  | .stdZeroMinute => appendInt t.minute 2
  | .stdMinute => appendInt t.minute 0
  | .stdZeroSecond => appendInt t.second 2
  | .stdSecond => appendInt t.second 0
  | .stdNumSecondsTz => appendZone t.zoneOffset false false true
  | .stdNumColonSecondsTZ => appendZone t.zoneOffset true false true
  | .stdNumTZ => appendZone t.zoneOffset false false false
  | .stdNumColonTZ => appendZone t.zoneOffset true false false
  | .stdNumShortTZ => appendZone t.zoneOffset false true false
  | .stdFracSecond0 sep n => appendNano t.nanosecond sep n false
  | .stdFracSecond9 sep n => appendNano t.nanosecond sep n true

/-- The loop of `Time.appendFormat`: literal text is copied, each layout
element is replaced by its rendering, until the layout has no element left.
Every round consumes at least one character of the layout. -/
def appendFormat : Nat → Str → Time → Str
  | 0, _, _ => []
  | fuel + 1, layout, t =>
      match nextStdChunk layout with
      | (pre, none, _) => pre
      | (pre, some std, suffix) => pre ++ (appendStd t std ++ appendFormat fuel suffix t)

/-- The method `t.Format(layout)`; one round per character of the layout is
enough fuel. -/
def Time.Format (t : Time) (layout : Str) : Str :=
  appendFormat (layout.length + 1) layout t

/-! ## The encoder configuration of `SetupLogger` (lines 37-50) -/

/-- A `time.Duration`: a signed 64-bit count of nanoseconds. -/
abbrev Duration := Int

def Nanosecond : Duration := 1
def Microsecond : Duration := 1000 * Nanosecond
def Millisecond : Duration := 1000 * Microsecond
def Second : Duration := 1000 * Millisecond
def Minute : Duration := 60 * Second
def Hour : Duration := 60 * Minute

def minInt64 : Int := -9223372036854775808
def maxInt64 : Int := 9223372036854775807

/-- The value an integer has once stored in an `int64`. -/
def wrapInt64 (x : Int) : Int := (x + 9223372036854775808) % 18446744073709551616 - 9223372036854775808

/-- Go's `/` on `int64`: the quotient truncated toward zero (the divisor in
this program is a non-zero constant). -/
def quoInt64 (a b : Int) : Int := wrapInt64 (Int.tdiv a b)

/-- What an encoder callback appends to a `zapcore.PrimitiveArrayEncoder`. -/
inductive Prim
  | string (s : Str)
  | int64 (v : Int)
  deriving DecidableEq, Repr

/-- The layout string of the time encoder. -/
def timeLayout : Str := "2006-01-02 15:04:05".toList

/-- The closure given as `EncodeTime`:
`enc.AppendString(t.Format("2006-01-02 15:04:05"))`. -/
def EncodeTime (t : Time) (enc : List Prim) : List Prim :=
  enc ++ [Prim.string (t.Format timeLayout)]

/-- The closure given as `EncodeDuration`:
`enc.AppendInt64(int64(d) / 1000000)`. -/
def EncodeDuration (d : Duration) (enc : List Prim) : List Prim :=
  enc ++ [Prim.int64 (quoInt64 d 1000000)]

inductive LevelEncoder
  | CapitalLevelEncoder
  deriving DecidableEq, Repr

inductive CallerEncoder
  | ShortCallerEncoder
  deriving DecidableEq, Repr

/-- The fields of `zapcore.EncoderConfig` that `SetupLogger` sets. -/
structure EncoderConfig where
  MessageKey : Str
  LevelKey : Str
  EncodeLevel : LevelEncoder
  TimeKey : Str
  EncodeTime : Time → List Prim → List Prim
  CallerKey : Str
  EncodeCaller : CallerEncoder
  EncodeDuration : Duration → List Prim → List Prim

/-- The `zapcore.EncoderConfig` literal of `SetupLogger`. -/
def encoderConfig : EncoderConfig where
  MessageKey := "msg".toList
  LevelKey := "level".toList
  EncodeLevel := .CapitalLevelEncoder
  TimeKey := "ts".toList
  EncodeTime := EncodeTime
  CallerKey := "file".toList
  EncodeCaller := .ShortCallerEncoder
  EncodeDuration := EncodeDuration

/-- The nineteen characters `YYYY-MM-DD HH:MM:SS` written with the decimal
digits of the six fields. -/
def stamp (y mo d h mi s : Nat) : Str :=
  [digitChar (y / 1000), digitChar (y / 100 % 10), digitChar (y / 10 % 10), digitChar (y % 10),
    '-', digitChar (mo / 10), digitChar (mo % 10),
    '-', digitChar (d / 10), digitChar (d % 10),
    ' ', digitChar (h / 10), digitChar (h % 10),
    ':', digitChar (mi / 10), digitChar (mi % 10),
    ':', digitChar (s / 10), digitChar (s % 10)]

/-! ## The rotating writer (`getWriter`, lines 75-90)

`getWriter` hands a strftime pattern and three options to `rotatelogs.New`
(package `github.com/lestrrat-go/file-rotatelogs`), which compiles the pattern
with package `github.com/lestrrat-go/strftime`. -/

/-- A compiled piece of a strftime pattern: text copied as it is, a conversion
rendered through `time.Time.Format` with a fixed layout, or any other
conversion of the library, given by the text it produces. -/
inductive Appender
  | Verbatim (s : Str)
  | StdlibFormat (layout : Str)
  | AppendFunc (f : Time → Str)

/-- The text one piece contributes for the time `t`. -/
def Appender.Append (t : Time) : Appender → Str
  | .Verbatim s => s
  | .StdlibFormat layout => t.Format layout
  | .AppendFunc f => f t

/-- The rest of the strftime library: what its compiler makes of a text that
starts with a `%` which is not one of the four conversions of this program
(`%Y`, `%m`, `%d`, `%H`).  The library is not part of the repository, so its
further verbs, flags and errors are a parameter. -/
abbrev StrftimeRest := Str → Except String (List Appender)

/-- An instance of the rest of the library that accepts nothing further. -/
def refuseRest : StrftimeRest := fun _ => .error "pattern compilation failed"

/-- Puts one compiled piece in front of the compiled rest. -/
def consAppender (a : Appender) : Except String (List Appender) → Except String (List Appender)
  | .ok as => .ok (a :: as)
  | .error e => .error e

/-- The pattern compiler of `strftime.New`, scanning from the left: text is
copied, `%Y`, `%m`, `%d` and `%H` become the layouts `2006`, `01`, `02` and
`15`, and from any other `%` on the rest of the library decides. -/
def compile (rest : StrftimeRest) : Str → Except String (List Appender)
  | [] => .ok []
  | '%' :: 'Y' :: r => consAppender (.StdlibFormat "2006".toList) (compile rest r)
  | '%' :: 'm' :: r => consAppender (.StdlibFormat "01".toList) (compile rest r)
  | '%' :: 'd' :: r => consAppender (.StdlibFormat "02".toList) (compile rest r)
  | '%' :: 'H' :: r => consAppender (.StdlibFormat "15".toList) (compile rest r)
  | '%' :: r => rest ('%' :: r)
  | c :: r => consAppender (.Verbatim [c]) (compile rest r)

/-- The method `Strftime.FormatString`: the pieces rendered in order. -/
def FormatString (pattern : List Appender) (t : Time) : Str :=
  match pattern with
  | [] => []
  | a :: as => a.Append t ++ FormatString as t

/-- The options of `rotatelogs.New`. -/
inductive RotateOption
  | WithLinkName (s : Str)
  | WithMaxAge (d : Duration)
  | WithRotationTime (d : Duration)
  | WithRotationCount (n : Nat)
  deriving DecidableEq, Repr

/-- The configuration held by a `*rotatelogs.RotateLogs`. -/
structure RotateLogs where
  pattern : List Appender
  linkName : Str
  maxAge : Duration
  rotationTime : Duration
  rotationCount : Nat

/-- The option loop of `rotatelogs.New`: each option overwrites its field,
negative durations are replaced by zero. -/
def applyOption (rl : RotateLogs) : RotateOption → RotateLogs
  | .WithLinkName s => { rl with linkName := s }
  | .WithMaxAge d => { rl with maxAge := if d < 0 then 0 else d }
  | .WithRotationTime d => { rl with rotationTime := if d < 0 then 0 else d }
  | .WithRotationCount n => { rl with rotationCount := n }

/-- The constructor `rotatelogs.New(p, options...)`: the pattern is compiled,
the defaults are a rotation time of 24 hours and no link, maximum age and count
exclude each other, and a maximum age of 7 days stands in when neither is set. -/
def rotatelogsNew (rest : StrftimeRest) (p : Str) (options : List RotateOption) :
    Except String RotateLogs :=
  match compile rest p with
  | .error e => .error e
  | .ok pattern =>
      let rl := options.foldl applyOption
        { pattern := pattern, linkName := [], maxAge := 0,
          rotationTime := 24 * Hour, rotationCount := 0 }
      if rl.maxAge > 0 ∧ rl.rotationCount > 0 then
        .error "options MaxAge and RotationCount cannot be both set"
      else if rl.maxAge = 0 ∧ rl.rotationCount = 0 then
        .ok { rl with maxAge := 7 * 24 * Hour }
      else .ok rl

/-- The name of the partition file for the rotation bucket that starts at
`base` (`genFilename`: the pattern formatted at the truncated time). -/
def RotateLogs.genFilename (rl : RotateLogs) (base : Time) : Str :=
  FormatString rl.pattern base

/-- The function `getWriter`; `.error` stands for `panic(err)`. -/
def getWriter (rest : StrftimeRest) (filename : Str) : Except String RotateLogs :=
  rotatelogsNew rest (filename ++ ".%Y%m%d%H".toList)
    [ .WithLinkName filename,
      .WithMaxAge (Hour * 24 * 7),
      .WithRotationTime Hour ]

/-- The ten digits year, month, day, hour of a rotation bucket. -/
def hourKey (y mo d h : Nat) : Str :=
  [digitChar (y / 1000), digitChar (y / 100 % 10), digitChar (y / 10 % 10), digitChar (y % 10),
    digitChar (mo / 10), digitChar (mo % 10), digitChar (d / 10), digitChar (d % 10),
    digitChar (h / 10), digitChar (h % 10)]

/-- A rotation bucket used in the examples: 4 November 2026, 14:00. -/
def sampleTime : Time := ⟨2026, 11, 4, 14, 0, 0, 0, 0⟩

/-- The parts of the `*zap.Logger` that `SetupLogger` decides. -/
structure Logger where
  encoder : EncoderConfig
  cores : List (Core RotateLogs)
  addCaller : Bool

/-- The function `SetupLogger`; `.error` stands for the panic of `getWriter`. -/
def SetupLogger (rest : StrftimeRest) (logDir accessLog errorLog : Str) :
    Except String Logger :=
  match getWriter rest (logDir ++ accessLog) with
  | .error e => .error e
  | .ok infoWriter =>
      match getWriter rest (logDir ++ errorLog) with
      | .error e => .error e
      | .ok warnWriter =>
          .ok { encoder := encoderConfig,
                cores := teeCores infoWriter warnWriter,
                addCaller := true }

def logDir : Str := "logs/".toList
def accessLog : Str := "access.log".toList
def errorLog : Str := "error.log".toList
def pidFile : Str := "running.pid".toList

/-! ## The pid file (`PidSetup`, lines 92-108)

The file system maps a path to what is there: a regular file with its content,
or a directory.  A path is a key in the spelling the program passes; a state
lists a file or directory under one spelling and together with its parent
directory.  The working directory is the path `.`.  Permissions are not part
of the state. -/

inductive Node
  | file (content : Str)
  | dir
  deriving DecidableEq, Repr

abbrev FileSystem := List (Str × Node)

/-- What is at the path `name`. -/
def FileSystem.get : FileSystem → Str → Option Node
  | [], _ => none
  | (q, n) :: r, name => if q = name then some n else FileSystem.get r name

/-- The file system without an entry at `name`. -/
def FileSystem.erase (fs : FileSystem) (name : Str) : FileSystem :=
  fs.filter (fun e => decide (e.1 ≠ name))

/-- The file system with `node` (or nothing, for `none`) at `name`. -/
def FileSystem.set (fs : FileSystem) (name : Str) (node : Option Node) : FileSystem :=
  match node with
  | none => fs.erase name
  | some n => (name, n) :: fs.erase name

/-- The directory part of a path: the text before the last `/` without its
trailing slashes, `/` when nothing is left of it, `.` when the path has no `/`. -/
def dirname (p : Str) : Str :=
  match p.reverse.dropWhile (fun c => decide (c ≠ '/')) with
  | [] => ['.']
  | slashes =>
      match slashes.dropWhile (fun c => decide (c = '/')) with
      | [] => ['/']
      | r => r.reverse

/-- The last component of a path: the text after the last `/`. -/
def basename (p : Str) : Str :=
  (p.reverse.takeWhile (fun c => decide (c ≠ '/'))).reverse

/-- Whether a last component can name a file: it is not empty (the path is not
empty and does not end in `/`) and is neither `.` nor `..`, which name
directories. -/
def isFileName (b : Str) : Bool :=
  decide (b ≠ [] ∧ b ≠ ['.'] ∧ b ≠ ['.', '.'])

/-- Whether some entry of the file system lies directly in the directory `d`. -/
def hasChild (fs : FileSystem) (d : Str) : Bool :=
  fs.any (fun e => decide (e.1 ≠ d ∧ dirname e.1 = d))

def O_RDONLY : Nat := 0x0
def O_WRONLY : Nat := 0x1
def O_RDWR : Nat := 0x2
def O_APPEND : Nat := 0x400
def O_CREATE : Nat := 0x40
def O_EXCL : Nat := 0x80
def O_TRUNC : Nat := 0x200

/-- Whether the bit `bit` is set in `flag`. -/
def hasFlag (flag bit : Nat) : Bool := (flag &&& bit) != 0

inductive Errno
  | ENOENT
  | EEXIST
  | EBADF
  | EISDIR
  | ENOTDIR
  | ENOTEMPTY
  deriving DecidableEq, Repr

/-- An open `*os.File`: its name, the flags it was opened with and the offset
of the next write. -/
structure File where
  name : Str
  flag : Nat
  offset : Nat
  deriving DecidableEq, Repr

/-- The call `os.OpenFile(name, flag, perm)`.  The empty path is refused; a
directory is refused for writing; an existing file is refused only under
`O_CREATE|O_EXCL` and emptied only under `O_TRUNC`; a missing file is created
only under `O_CREATE`, and only when the last component of the path can name a
file and the parent is an existing directory. -/
def OpenFile (fs : FileSystem) (name : Str) (flag : Nat) (_perm : Nat) :
    Except Errno (File × FileSystem) :=
  if name = [] then .error .ENOENT
  else
    match fs.get name with
    | some .dir =>
        if (flag &&& 3) = O_RDONLY ∧ hasFlag flag O_CREATE = false then .ok (⟨name, flag, 0⟩, fs)
        else .error .EISDIR
    | some (.file _) =>
        if hasFlag flag O_CREATE && hasFlag flag O_EXCL then .error .EEXIST
        else if hasFlag flag O_TRUNC then .ok (⟨name, flag, 0⟩, fs.set name (some (.file [])))
        else .ok (⟨name, flag, 0⟩, fs)
    | none =>
        if hasFlag flag O_CREATE = false then .error .ENOENT
        else if isFileName (basename name) = false then .error .EISDIR
        else
          match fs.get (dirname name) with
          | some .dir => .ok (⟨name, flag, 0⟩, fs.set name (some (.file [])))
          | some (.file _) => .error .ENOTDIR
          | none => .error .ENOENT

/-- The bytes of a file after `data` is written at `offset`: a gap between the
old length and `offset` is filled with zero bytes, bytes under `data` are
replaced, bytes after it stay. -/
def writeAt (old : Str) (offset : Nat) (data : Str) : Str :=
  old.take offset ++ List.replicate (offset - old.length) (Char.ofNat 0) ++ data ++
    old.drop (offset + data.length)

/-- The call `io.WriteString(f, s)`: the file system and the file after the
write, and the error if there is one. -/
def WriteString (fs : FileSystem) (f : File) (s : Str) : FileSystem × File × Option Errno :=
  if (f.flag &&& 3) = O_RDONLY then (fs, f, some .EBADF)
  else
    match fs.get f.name with
    | some (.file old) =>
        let offset := if hasFlag f.flag O_APPEND then old.length else f.offset
        (fs.set f.name (some (.file (writeAt old offset s))),
          { f with offset := offset + s.length }, none)
    | _ => (fs, f, some .EBADF)

/-- The call `os.Remove(name)`: a file is unlinked, an empty directory is
removed; a missing path and a directory with entries are errors and leave the
file system as it is. -/
def Remove (fs : FileSystem) (name : Str) : FileSystem × Option Errno :=
  match fs.get name with
  | some (.file _) => (fs.set name none, none)
  | some .dir => if hasChild fs name then (fs, some .ENOTEMPTY) else (fs.set name none, none)
  | none => (fs, some .ENOENT)

/-- How a step of the file system can differ from the state before: the entry at
`p` is as before, or `p` is the path `q` that was written and holds a file. -/
def Touched (fs fs1 : FileSystem) (q p : Str) : Prop :=
  fs1.get p = fs.get p ∨ (p = q ∧ ∃ x, fs1.get p = some (Node.file x))

/-- What a log call does to the file system: the steps of a writer that logs
into files.  `mkdir` makes one directory, `append` opens a file with
`O_CREATE|O_APPEND|O_WRONLY` and writes a line at its end, `link` points an
alias at a partition file. -/
inductive LogOp
  | mkdir (path : Str)
  | append (path : Str) (line : Str)
  | link (linkName target : Str)
  deriving DecidableEq, Repr

/-- The path a step changes. -/
def LogOp.path : LogOp → Str
  | .mkdir p => p
  | .append p _ => p
  | .link a _ => a

/-- One step on the file system; a step that the file system refuses changes
nothing.  An alias is kept as a file that holds what its target holds at that
moment, since a symbolic link reads and unlinks like a file. -/
def applyOp (fs : FileSystem) : LogOp → FileSystem
  | .mkdir p =>
      match fs.get p, fs.get (dirname p) with
      | none, some .dir => if p = [] then fs else fs.set p (some .dir)
      | _, _ => fs
  | .append p line =>
      match OpenFile fs p (O_CREATE ||| O_APPEND ||| O_WRONLY) 0o644 with
      | .ok (f, fs1) => (WriteString fs1 f line).1
      | .error _ => fs
  | .link a target =>
      match fs.get a, fs.get target with
      | some .dir, _ => fs
      | _, some (.file c) => if a = [] then fs else fs.set a (some (.file c))
      | _, _ => fs

/-- A `*zap.Logger` as the pid-file code uses it: the steps its `Info` call
takes for a message and its fields.  `zap.NewNop()` takes none; the logger of
`main` makes `logs`, appends the encoded line to the partition of the hour and
points the alias at it. -/
structure ZapLogger where
  Info : Str → List (Str × Int) → List LogOp

/-- The logger `zap.NewNop()`. -/
def nopLogger : ZapLogger := ⟨fun _ _ => []⟩

/-- The log line of an entry, as far as it matters here: message and fields. -/
def sampleLine (msg : Str) (fields : List (Str × Int)) : Str :=
  msg ++ fields.foldr (fun kv acc => ' ' :: kv.1 ++ '=' :: SprintfD kv.2 ++ acc) ['\n']

/-- The directories on the way to `p`, outermost first, and `p` itself: what
`os.MkdirAll(p)` makes one after the other. -/
def ancestors (acc : Str) : Str → List Str
  | [] => if acc = [] ∨ acc.getLast? = some '/' then [] else [acc]
  | '/' :: r =>
      (if acc = [] ∨ acc.getLast? = some '/' then [] else [acc]) ++ ancestors (acc ++ ['/']) r
  | c :: r => ancestors (acc ++ [c]) r

/-- The steps of one write of a rotating writer at the time `now`: the
directory of the partition is made with the directories above it, the line is
appended to the partition and the alias is pointed at it. -/
def RotateLogs.writeOps (rl : RotateLogs) (now : Time) (line : Str) : List LogOp :=
  (ancestors [] (dirname (rl.genFilename now))).map LogOp.mkdir ++
    [ .append (rl.genFilename now) line,
      .link rl.linkName (rl.genFilename now) ]

/-- The `*zap.Logger` that `SetupLogger` returns, at work at the time `now`:
an `Info` entry is written by every core of the tee that accepts `InfoLevel`. -/
def Logger.zap (logger : Logger) (now : Time) : ZapLogger :=
  ⟨fun msg fields =>
    (teeCheck logger.cores InfoLevel []).foldr
      (fun rl acc => rl.writeOps now (sampleLine msg fields) ++ acc) []⟩

/-- The logger `main` passes, `SetupLogger(logDir, accessLog, errorLog)`,
writing during the hour of 4 November 2026, 14:00. -/
def sampleLogger : ZapLogger :=
  match SetupLogger refuseRest logDir accessLog errorLog with
  | .ok logger => logger.zap sampleTime
  | .error _ => nopLogger

/-- A logger whose output file is the pid file itself. -/
def clashLogger : ZapLogger :=
  ⟨fun msg fields => [ .append "running.pid".toList (sampleLine msg fields) ]⟩

structure PidSetup where
  PidFile : Str
  deriving DecidableEq, Repr

/-- The method `PidSetup.CreatePidFile(logger)`, run by the process `getpid`;
`.error` stands for `panic("failed to create pid file")`.  The results of
`io.WriteString` and `f.Close` are dropped, as in the source; the closing
`logger.Info("Server ", zap.Int("pid", os.Getpid()))` takes its steps on the
file system. -/
def PidSetup.CreatePidFile (pid : PidSetup) (logger : ZapLogger) (getpid : Int)
    (fs : FileSystem) : Except String FileSystem :=
  match OpenFile fs pid.PidFile (O_CREATE ||| O_WRONLY) 0o644 with
  | .error _ => .error "failed to create pid file"
  | .ok (f, fs1) =>
      .ok ((logger.Info "Server ".toList [("pid".toList, getpid)]).foldl applyOp
        (WriteString fs1 f (SprintfD getpid)).1)

/-- The method `PidSetup.RemovePidFile`: the result of `os.Remove` is dropped,
so the method returns normally in every case. -/
def PidSetup.RemovePidFile (pid : PidSetup) (fs : FileSystem) : Except String FileSystem :=
  .ok (Remove fs pid.PidFile).1

/-- A file system with the working directory and nothing in it. -/
def emptyFS : FileSystem := [(['.'], Node.dir)]

/-- A file system whose only file is a stale `running.pid` holding `123456`. -/
def staleFS : FileSystem := emptyFS.set pidFile (some (.file "123456".toList))

/-! ## Theorems -/

/-! ### Decimal rendering -/

theorem decimalAux_acc (f : Nat) : ∀ (n : Nat) (acc : Str), n < f →
    decimalAux f n acc = decimalAux f n [] ++ acc := by
  induction f with
  | zero => intro n acc h; omega
  | succ f ih =>
    intro n acc h
    by_cases h10 : n < 10
    · simp [decimalAux, h10]
    · have hlt : n / 10 < f := by omega
      simp only [decimalAux, h10, if_false]
      rw [ih (n / 10) (digitChar (n % 10) :: acc) hlt, ih (n / 10) [digitChar (n % 10)] hlt]
      simp

theorem decimalAux_fuel (f : Nat) : ∀ (g n : Nat) (acc : Str), n < f → n < g →
    decimalAux f n acc = decimalAux g n acc := by
  induction f with
  | zero => intro g n acc h; omega
  | succ f ih =>
    intro g n acc hf hg
    obtain ⟨g, rfl⟩ : ∃ k, g = k + 1 := ⟨g - 1, by omega⟩
    by_cases h10 : n < 10
    · simp [decimalAux, h10]
    · simp only [decimalAux, h10, if_false]
      exact ih g (n / 10) _ (by omega) (by omega)

theorem decimal_of_lt_ten {n : Nat} (h : n < 10) : decimal n = [digitChar n] := by
  simp [decimal, decimalAux, h]

theorem decimal_step {n : Nat} (h : 10 ≤ n) :
    decimal n = decimal (n / 10) ++ [digitChar (n % 10)] := by
  have h10 : ¬ n < 10 := by omega
  have e : decimalAux (n + 1) n [] = decimalAux n (n / 10) [digitChar (n % 10)] := by
    simp only [decimalAux, h10, if_false]
  unfold decimal
  rw [e, decimalAux_acc n (n / 10) _ (by omega),
    decimalAux_fuel n (n / 10 + 1) (n / 10) [] (by omega) (by omega)]

theorem decimal_eq_digits {n : Nat} (h : 0 < n) :
    decimal n = ((Nat.digits 10 n).map digitChar).reverse := by
  induction n using Nat.strong_induction_on with
  | _ n ih =>
    by_cases h10 : n < 10
    · rw [decimal_of_lt_ten h10, Nat.digits_of_lt 10 n (by omega) h10]
      simp
    · have hstep := decimal_step (n := n) (by omega)
      rw [hstep, ih (n / 10) (by omega) (by omega), Nat.digits_def' (by norm_num) h]
      simp

theorem appendInt_two {n : Nat} (h : n < 100) :
    appendInt (n : Int) 2 = [digitChar (n / 10), digitChar (n % 10)] := by
  have hneg : ¬ ((n : Int) < 0) := by omega
  by_cases h10 : n < 10
  · have h0 : n / 10 = 0 := by omega
    have hm : n % 10 = n := by omega
    simp [appendInt, hneg, decimal_of_lt_ten h10, h0, hm, digitChar]
  · have hq : n / 10 < 10 := by omega
    simp [appendInt, hneg, decimal_step (n := n) (by omega), decimal_of_lt_ten hq]

theorem appendInt_four {n : Nat} (h : n < 10000) :
    appendInt (n : Int) 4 =
      [digitChar (n / 1000), digitChar (n / 100 % 10), digitChar (n / 10 % 10),
        digitChar (n % 10)] := by
  have hneg : ¬ ((n : Int) < 0) := by omega
  by_cases h10 : n < 10
  · have e1 : n / 1000 = 0 := by omega
    have e2 : n / 100 % 10 = 0 := by omega
    have e3 : n / 10 % 10 = 0 := by omega
    have e4 : n % 10 = n := by omega
    simp [appendInt, hneg, decimal_of_lt_ten h10, e1, e2, e3, e4, digitChar, List.replicate]
  · by_cases h100 : n < 100
    · have hq : n / 10 < 10 := by omega
      have e1 : n / 1000 = 0 := by omega
      have e2 : n / 100 % 10 = 0 := by omega
      have e3 : n / 10 % 10 = n / 10 := by omega
      simp [appendInt, hneg, decimal_step (n := n) (by omega), decimal_of_lt_ten hq,
        e1, e2, e3, digitChar, List.replicate]
    · by_cases h1000 : n < 1000
      · have hq : n / 10 / 10 < 10 := by omega
        have e1 : n / 1000 = 0 := by omega
        have e2 : n / 100 % 10 = n / 10 / 10 := by omega
        simp [appendInt, hneg, decimal_step (n := n) (by omega),
          decimal_step (n := n / 10) (by omega), decimal_of_lt_ten hq,
          e1, e2, digitChar, List.replicate]
      · have hq : n / 10 / 10 / 10 < 10 := by omega
        have e1 : n / 1000 = n / 10 / 10 / 10 := by omega
        have e2 : n / 100 % 10 = n / 10 / 10 % 10 := by omega
        simp [appendInt, hneg, decimal_step (n := n) (by omega),
          decimal_step (n := n / 10) (by omega), decimal_step (n := n / 10 / 10) (by omega),
          decimal_of_lt_ten hq, e1, e2]

theorem digitChar_isDigit {d : Nat} (h : d < 10) : (digitChar d).isDigit = true := by
  interval_cases d <;> rfl

/-! ### The layout of the time encoder -/

theorem format_timeLayout (t : Time) :
    t.Format timeLayout =
      appendInt t.year 4 ++ ['-'] ++ appendInt t.month 2 ++ ['-'] ++ appendInt t.day 2 ++ [' '] ++
        appendInt t.hour 2 ++ [':'] ++ appendInt t.minute 2 ++ [':'] ++ appendInt t.second 2 := by
  have h1 : nextStdChunk timeLayout =
      ([], some .stdLongYear, "-01-02 15:04:05".toList) := by decide
  have h2 : nextStdChunk "-01-02 15:04:05".toList =
      (['-'], some .stdZeroMonth, "-02 15:04:05".toList) := by decide
  have h3 : nextStdChunk "-02 15:04:05".toList =
      (['-'], some .stdZeroDay, " 15:04:05".toList) := by decide
  have h4 : nextStdChunk " 15:04:05".toList =
      ([' '], some .stdHour, ":04:05".toList) := by decide
  have h5 : nextStdChunk ":04:05".toList =
      ([':'], some .stdZeroMinute, ":05".toList) := by decide
  have h6 : nextStdChunk ":05".toList = ([':'], some .stdZeroSecond, []) := by decide
  have h7 : nextStdChunk [] = ([], none, []) := rfl
  have hlen : timeLayout.length + 1 = 13 + 7 := by decide
  unfold Time.Format
  rw [hlen]
  simp only [appendFormat, h1, h2, h3, h4, h5, h6, h7, appendStd]
  simp

theorem stamp_isDigit (y mo d h mi s : Nat) (hy : y < 10000) (hmo : mo < 100) (hd : d < 100)
    (hh : h < 100) (hmi : mi < 100) (hs : s < 100) :
    (stamp y mo d h mi s).map Char.isDigit =
      [true, true, true, true, false, true, true, false, true, true, false,
        true, true, false, true, true, false, true, true] := by
  have e1 := digitChar_isDigit (d := y / 1000) (by omega)
  have e2 := digitChar_isDigit (d := y / 100 % 10) (by omega)
  have e3 := digitChar_isDigit (d := y / 10 % 10) (by omega)
  have e4 := digitChar_isDigit (d := y % 10) (by omega)
  have e5 := digitChar_isDigit (d := mo / 10) (by omega)
  have e6 := digitChar_isDigit (d := mo % 10) (by omega)
  have e7 := digitChar_isDigit (d := d / 10) (by omega)
  have e8 := digitChar_isDigit (d := d % 10) (by omega)
  have e9 := digitChar_isDigit (d := h / 10) (by omega)
  have e10 := digitChar_isDigit (d := h % 10) (by omega)
  have e11 := digitChar_isDigit (d := mi / 10) (by omega)
  have e12 := digitChar_isDigit (d := mi % 10) (by omega)
  have e13 := digitChar_isDigit (d := s / 10) (by omega)
  have e14 := digitChar_isDigit (d := s % 10) (by omega)
  have f1 : Char.isDigit '-' = false := by decide
  have f2 : Char.isDigit ' ' = false := by decide
  have f3 : Char.isDigit ':' = false := by decide
  simp only [stamp, List.map, e1, e2, e3, e4, e5, e6, e7, e8, e9, e10, e11, e12, e13, e14,
    f1, f2, f3]

theorem hourKey_isDigit (y mo d h : Nat) (hy : y < 10000) (hmo : mo < 100) (hd : d < 100)
    (hh : h < 100) : (hourKey y mo d h).all Char.isDigit = true := by
  have e1 := digitChar_isDigit (d := y / 1000) (by omega)
  have e2 := digitChar_isDigit (d := y / 100 % 10) (by omega)
  have e3 := digitChar_isDigit (d := y / 10 % 10) (by omega)
  have e4 := digitChar_isDigit (d := y % 10) (by omega)
  have e5 := digitChar_isDigit (d := mo / 10) (by omega)
  have e6 := digitChar_isDigit (d := mo % 10) (by omega)
  have e7 := digitChar_isDigit (d := d / 10) (by omega)
  have e8 := digitChar_isDigit (d := d % 10) (by omega)
  have e9 := digitChar_isDigit (d := h / 10) (by omega)
  have e10 := digitChar_isDigit (d := h % 10) (by omega)
  simp [hourKey, e1, e2, e3, e4, e5, e6, e7, e8, e9, e10]

theorem format_timeLayout_stamp (t : Time) (hv : t.Valid) (hy0 : 0 ≤ t.year)
    (hy : t.year ≤ 9999) :
    t.Format timeLayout = stamp t.year.toNat t.month t.day t.hour t.minute t.second := by
  obtain ⟨_, hm, _, hd, hh, hmi, hs, _⟩ := hv
  obtain ⟨y, hyear⟩ : ∃ y : Nat, t.year = (y : Int) :=
    ⟨t.year.toNat, (Int.toNat_of_nonneg hy0).symm⟩
  rw [format_timeLayout, hyear, appendInt_four (n := y) (by omega),
    appendInt_two (n := t.month) (by omega), appendInt_two (n := t.day) (by omega),
    appendInt_two (n := t.hour) (by omega), appendInt_two (n := t.minute) (by omega),
    appendInt_two (n := t.second) (by omega)]
  simp [stamp]

theorem SprintfD_eq_digits (n : Int) :
    SprintfD n =
      (if n < 0 then ['-'] else []) ++
        (if n = 0 then ['0'] else ((Nat.digits 10 n.natAbs).map digitChar).reverse) := by
  unfold SprintfD
  by_cases h0 : n = 0
  · subst h0; decide
  · have hpos : 0 < n.natAbs := Int.natAbs_pos.mpr h0
    rw [decimal_eq_digits hpos]
    by_cases hn : n < 0 <;> simp [hn, h0]

/-! ### The strftime pattern and the rotating writer -/

theorem compile_cons_plain (rest : StrftimeRest) (c : Char) (r : Str) (hc : c ≠ '%') :
    compile rest (c :: r) = consAppender (.Verbatim [c]) (compile rest r) := by
  rw [compile]
  all_goals (intros; simp_all)

theorem compile_verbatim (rest : StrftimeRest) (tail : Str) : ∀ f : Str, '%' ∉ f →
    compile rest (f ++ tail) =
      match compile rest tail with
      | .ok as => .ok (f.map (fun c => Appender.Verbatim [c]) ++ as)
      | .error e => .error e := by
  intro f
  induction f with
  | nil =>
    intro _
    simp only [List.nil_append, List.map_nil]
    cases compile rest tail <;> rfl
  | cons c f ih =>
    intro h
    have hc : c ≠ '%' := fun e => h (by simp [e])
    have hf : '%' ∉ f := fun e => h (by simp [e])
    rw [List.cons_append, compile_cons_plain rest c _ hc, ih hf]
    cases compile rest tail <;> rfl

theorem compile_suffix (rest : StrftimeRest) : compile rest ".%Y%m%d%H".toList =
    .ok [.Verbatim ['.'], .StdlibFormat "2006".toList, .StdlibFormat "01".toList,
      .StdlibFormat "02".toList, .StdlibFormat "15".toList] := by
  rfl

theorem FormatString_append (t : Time) : ∀ p q : List Appender,
    FormatString (p ++ q) t = FormatString p t ++ FormatString q t := by
  intro p q
  induction p with
  | nil => rfl
  | cons a p ih => simp [FormatString, ih]

theorem FormatString_verbatim (t : Time) : ∀ f : Str,
    FormatString (f.map (fun c => Appender.Verbatim [c])) t = f := by
  intro f
  induction f with
  | nil => rfl
  | cons c f ih => simp [FormatString, Appender.Append, ih]

theorem format_fields (t : Time) :
    t.Format "2006".toList = appendInt t.year 4 ∧ t.Format "01".toList = appendInt t.month 2 ∧
    t.Format "02".toList = appendInt t.day 2 ∧ t.Format "15".toList = appendInt t.hour 2 := by
  have h1 : nextStdChunk "2006".toList = ([], some .stdLongYear, []) := by decide
  have h2 : nextStdChunk "01".toList = ([], some .stdZeroMonth, []) := by decide
  have h3 : nextStdChunk "02".toList = ([], some .stdZeroDay, []) := by decide
  have h4 : nextStdChunk "15".toList = ([], some .stdHour, []) := by decide
  have h0 : nextStdChunk [] = ([], none, []) := rfl
  have l1 : "2006".toList.length + 1 = 3 + 2 := by decide
  have l2 : "01".toList.length + 1 = 1 + 2 := by decide
  have l3 : "02".toList.length + 1 = 1 + 2 := by decide
  have l4 : "15".toList.length + 1 = 1 + 2 := by decide
  refine ⟨?_, ?_, ?_, ?_⟩
  · unfold Time.Format; rw [l1]; simp only [appendFormat, h1, h0, appendStd]; simp
  · unfold Time.Format; rw [l2]; simp only [appendFormat, h2, h0, appendStd]; simp
  · unfold Time.Format; rw [l3]; simp only [appendFormat, h3, h0, appendStd]; simp
  · unfold Time.Format; rw [l4]; simp only [appendFormat, h4, h0, appendStd]; simp

theorem getWriter_eq (rest : StrftimeRest) (f : Str) :
    getWriter rest f =
      match compile rest (f ++ ".%Y%m%d%H".toList) with
      | .error e => .error e
      | .ok p => .ok ⟨p, f, 604800 * Second, 3600 * Second, 0⟩ := by
  unfold getWriter rotatelogsNew
  cases compile rest (f ++ ".%Y%m%d%H".toList) with
  | error e => rfl
  | ok p => rfl

theorem genFilename_of_plain (rest : StrftimeRest) (f : Str) (hf : '%' ∉ f) :
    ∃ rl, getWriter rest f = .ok rl ∧
      rl.rotationTime = 3600 * Second ∧ rl.maxAge = 604800 * Second ∧ rl.linkName = f ∧
      ∀ base : Time, rl.genFilename base =
        f ++ '.' :: (appendInt base.year 4 ++ appendInt base.month 2 ++ appendInt base.day 2 ++
          appendInt base.hour 2) := by
  have hc := compile_verbatim rest ".%Y%m%d%H".toList f hf
  rw [compile_suffix] at hc
  have hg := getWriter_eq rest f
  rw [hc] at hg
  refine ⟨_, hg, rfl, rfl, rfl, ?_⟩
  intro base
  obtain ⟨h1, h2, h3, h4⟩ := format_fields base
  have k1 : base.Format ['2', '0', '0', '6'] = appendInt base.year 4 := h1
  have k2 : base.Format ['0', '1'] = appendInt base.month 2 := h2
  have k3 : base.Format ['0', '2'] = appendInt base.day 2 := h3
  have k4 : base.Format ['1', '5'] = appendInt base.hour 2 := h4
  simp [RotateLogs.genFilename, FormatString_append, FormatString_verbatim, FormatString,
    Appender.Append, k1, k2, k3, k4]

theorem getWriter_ok_fields (rest : StrftimeRest) (f : Str) (rl : RotateLogs)
    (h : getWriter rest f = .ok rl) :
    rl.rotationTime = 3600 * Second ∧ rl.maxAge = 604800 * Second ∧ rl.linkName = f ∧
      compile rest (f ++ ".%Y%m%d%H".toList) = .ok rl.pattern := by
  rw [getWriter_eq] at h
  cases hc : compile rest (f ++ ".%Y%m%d%H".toList) with
  | error e => rw [hc] at h; cases h
  | ok p =>
    rw [hc] at h
    cases h
    exact ⟨rfl, rfl, rfl, rfl⟩

/-! ### Severity routing -/

theorem route_eq (W : Type) (iw ww : W) (lvl : Level) :
    route iw ww lvl = if lvl < WarnLevel then [iw] else [ww] := by
  by_cases h : lvl < WarnLevel
  · have h2 : ¬ lvl ≥ WarnLevel := not_le.mpr h
    simp [route, teeCheck, teeCores, Core.Check, infoLevel, warnLevel, h, h2]
  · have h2 : lvl ≥ WarnLevel := not_lt.mp h
    simp [route, teeCheck, teeCores, Core.Check, infoLevel, warnLevel, h, h2]

theorem SetupLogger_cores (rest : StrftimeRest) (dir access error : Str) (logger : Logger)
    (h : SetupLogger rest dir access error = .ok logger) :
    ∃ infoWriter warnWriter, getWriter rest (dir ++ access) = .ok infoWriter ∧
      getWriter rest (dir ++ error) = .ok warnWriter ∧
      logger.cores = teeCores infoWriter warnWriter := by
  unfold SetupLogger at h
  cases h1 : getWriter rest (dir ++ access) with
  | error e => rw [h1] at h; cases h
  | ok iw =>
    cases h2 : getWriter rest (dir ++ error) with
    | error e => rw [h1, h2] at h; cases h
    | ok ww =>
      rw [h1, h2] at h
      cases h
      exact ⟨iw, ww, rfl, rfl, rfl⟩

/-- C1: for every level exactly one of `infoLevel`, `warnLevel` holds, and the
Tee core of `SetupLogger` hands every event to exactly one of its two writers
(never both, never neither). -/
theorem C1_partition_total_exclusive (lvl : Level) :
    xor (infoLevel lvl) (warnLevel lvl) = true ∧
    (∀ (W : Type) (infoWriter warnWriter : W),
      (route infoWriter warnWriter lvl).length = 1 ∧
      (route infoWriter warnWriter lvl = [infoWriter] ∨
        route infoWriter warnWriter lvl = [warnWriter])) ∧
    (∀ (rest : StrftimeRest) (dir access error : Str) (logger : Logger),
      SetupLogger rest dir access error = .ok logger →
        (teeCheck logger.cores lvl []).length = 1 ∧
        ((logger.cores.filter (fun c => c.enab lvl)).length = 1)) := by
  have hx : xor (infoLevel lvl) (warnLevel lvl) = true := by
    by_cases h : lvl < WarnLevel
    · have h2 : ¬ lvl ≥ WarnLevel := not_le.mpr h
      simp [infoLevel, warnLevel, h, h2]
    · have h2 : lvl ≥ WarnLevel := not_lt.mp h
      simp [infoLevel, warnLevel, h, h2]
  refine ⟨hx, ?_, ?_⟩
  · intro W iw ww
    rw [route_eq]
    by_cases h : lvl < WarnLevel <;> simp [h]
  · intro rest dir access error logger h
    obtain ⟨iw, ww, _, _, hc⟩ := SetupLogger_cores rest dir access error logger h
    have hr := route_eq RotateLogs iw ww lvl
    unfold route at hr
    rw [hc, hr]
    constructor
    · by_cases h : lvl < WarnLevel <;> simp [h]
    · by_cases h : lvl < WarnLevel
      · have h2 : ¬ lvl ≥ WarnLevel := not_le.mpr h
        simp [teeCores, infoLevel, warnLevel, h, h2]
      · have h2 : lvl ≥ WarnLevel := not_lt.mp h
        simp [teeCores, infoLevel, warnLevel, h, h2]

theorem C1_partition_total_exclusive_witness :
    ∃ logger, SetupLogger refuseRest logDir accessLog errorLog = .ok logger ∧
      (teeCheck logger.cores ErrorLevel []).length = 1 ∧
      (logger.cores.filter (fun c => c.enab ErrorLevel)).length = 1 :=
  ⟨_, rfl,
    (C1_partition_total_exclusive ErrorLevel).2.2 refuseRest logDir accessLog errorLog _ rfl⟩

/-- C2: levels below `WarnLevel` (Debug, Info) are delivered to the access-log
writer only, levels at or above it (Warn, Error, DPanic, Panic, Fatal) to the
error-log writer only, and the selection is monotone: when `a ≤ b` and `a` goes
to the elevated band, so does `b`.  In the logger that `SetupLogger` builds the
writer of the normal band is `getWriter(logDir+accessLog)` and the writer of
the elevated band is `getWriter(logDir+errorLog)`. -/
theorem C2_routing_monotone (lvl a b : Level) :
    (lvl < WarnLevel → selectedBands lvl = [Band.normal] ∧
      ∀ (W : Type) (infoWriter warnWriter : W), route infoWriter warnWriter lvl = [infoWriter]) ∧
    (lvl ≥ WarnLevel → selectedBands lvl = [Band.elevated] ∧
      ∀ (W : Type) (infoWriter warnWriter : W), route infoWriter warnWriter lvl = [warnWriter]) ∧
    (List.map selectedBands [DebugLevel, InfoLevel] = [[Band.normal], [Band.normal]]) ∧
    (List.map selectedBands [WarnLevel, ErrorLevel, DPanicLevel, PanicLevel, FatalLevel] =
      [[Band.elevated], [Band.elevated], [Band.elevated], [Band.elevated], [Band.elevated]]) ∧
    (a ≤ b → selectedBands a = [Band.elevated] → selectedBands b = [Band.elevated]) ∧
    (a ≤ b → warnLevel a = true → warnLevel b = true) ∧
    (∀ (rest : StrftimeRest) (dir access error : Str) (logger : Logger),
      SetupLogger rest dir access error = .ok logger →
        ∃ accessWriter errorWriter,
          getWriter rest (dir ++ access) = .ok accessWriter ∧
          getWriter rest (dir ++ error) = .ok errorWriter ∧
          accessWriter.linkName = dir ++ access ∧ errorWriter.linkName = dir ++ error ∧
          (lvl < WarnLevel → teeCheck logger.cores lvl [] = [accessWriter]) ∧
          (lvl ≥ WarnLevel → teeCheck logger.cores lvl [] = [errorWriter]) ∧
          (a ≤ b → teeCheck logger.cores a [] = [errorWriter] →
            teeCheck logger.cores b [] = [errorWriter])) := by
  refine ⟨?_, ?_, by decide, by decide, ?_, ?_, ?_⟩
  · intro h
    exact ⟨by simp [selectedBands, route_eq, h], fun W iw ww => by simp [route_eq, h]⟩
  · intro h
    have h2 : ¬ lvl < WarnLevel := not_lt.mpr h
    exact ⟨by simp [selectedBands, route_eq, h2], fun W iw ww => by simp [route_eq, h2]⟩
  · intro hab ha
    by_cases h : a < WarnLevel
    · simp [selectedBands, route_eq, h] at ha
    · have hb : ¬ b < WarnLevel := fun hb => h (lt_of_le_of_lt hab hb)
      simp [selectedBands, route_eq, hb]
  · intro hab ha
    simp only [warnLevel, decide_eq_true_eq] at ha ⊢
    exact le_trans ha hab
  · intro rest dir access error logger h
    obtain ⟨iw, ww, h1, h2, hc⟩ := SetupLogger_cores rest dir access error logger h
    have hr : ∀ l : Level, teeCheck (teeCores iw ww) l [] = if l < WarnLevel then [iw] else [ww] :=
      fun l => route_eq RotateLogs iw ww l
    refine ⟨iw, ww, h1, h2, (getWriter_ok_fields rest _ _ h1).2.2.1,
      (getWriter_ok_fields rest _ _ h2).2.2.1, ?_, ?_, ?_⟩
    · intro hl
      rw [hc, hr, if_pos hl]
    · intro hl
      rw [hc, hr, if_neg (not_lt.mpr hl)]
    · intro hab ha
      rw [hc, hr] at ha ⊢
      by_cases hlt : a < WarnLevel
      · rw [if_pos hlt] at ha
        by_cases hb : b < WarnLevel
        · rw [if_pos hb]; exact ha
        · rw [if_neg hb]
      · have hb : ¬ b < WarnLevel := fun hb => hlt (lt_of_le_of_lt hab hb)
        rw [if_neg hb]

theorem C2_routing_monotone_witness :
    selectedBands InfoLevel = [Band.normal] ∧ selectedBands ErrorLevel = [Band.elevated] ∧
      selectedBands FatalLevel = [Band.elevated] ∧
      ∃ logger accessWriter errorWriter,
        SetupLogger refuseRest logDir accessLog errorLog = .ok logger ∧
        accessWriter.linkName = "logs/access.log".toList ∧
        errorWriter.linkName = "logs/error.log".toList ∧
        teeCheck logger.cores InfoLevel [] = [accessWriter] ∧
        teeCheck logger.cores ErrorLevel [] = [errorWriter] := by
  refine ⟨((C2_routing_monotone InfoLevel WarnLevel FatalLevel).1 (by decide)).1,
    ((C2_routing_monotone ErrorLevel WarnLevel FatalLevel).2.1 (by decide)).1,
    (C2_routing_monotone InfoLevel WarnLevel FatalLevel).2.2.2.2.1 (by decide) (by decide), ?_⟩
  obtain ⟨aw, ew, h1, h2, l1, l2, r1, _, _⟩ :=
    (C2_routing_monotone InfoLevel WarnLevel FatalLevel).2.2.2.2.2.2
      refuseRest logDir accessLog errorLog _ rfl
  obtain ⟨aw2, ew2, k1, k2, _, _, _, r2, _⟩ :=
    (C2_routing_monotone ErrorLevel WarnLevel FatalLevel).2.2.2.2.2.2
      refuseRest logDir accessLog errorLog _ rfl
  have e : ew2 = ew := by
    have := k2.symm.trans h2
    exact Except.ok.inj this
  subst e
  exact ⟨_, aw, ew2, rfl, l1.trans (by decide), l2.trans (by decide), r1 (by decide),
    r2 (by decide)⟩

/-! ### The duration encoder -/

/-- C10: for every duration `d` in the `int64` range the duration encoder
appends the quotient `q` of `d` by 1000000 truncated toward zero; `q` is the
whole number of milliseconds in `d`. -/
theorem C10_duration_millis (d : Int) (enc : List Prim)
    (hlo : minInt64 ≤ d) (hhi : d ≤ maxInt64) :
    encoderConfig.EncodeDuration d enc = enc ++ [Prim.int64 (Int.tdiv d 1000000)] ∧
    |Int.tdiv d 1000000 * 1000000| ≤ |d| ∧
    |d - Int.tdiv d 1000000 * 1000000| < 1000000 ∧
    (0 ≤ d → 0 ≤ d - Int.tdiv d 1000000 * 1000000) ∧
    (d ≤ 0 → d - Int.tdiv d 1000000 * 1000000 ≤ 0) ∧
    (|d| < 1000000 → Int.tdiv d 1000000 = 0) := by
  simp only [minInt64, maxInt64] at hlo hhi
  obtain ⟨q, hq⟩ : ∃ q, Int.tdiv d 1000000 = q := ⟨_, rfl⟩
  have hdef : (0 ≤ d → q = d / 1000000) ∧ (d < 0 → q = -((-d) / 1000000)) := by
    constructor
    · intro h
      rw [← hq, Int.tdiv_eq_ediv h (by norm_num)]
    · intro h
      have h1 : Int.tdiv (-d) 1000000 = (-d) / 1000000 :=
        Int.tdiv_eq_ediv (by omega) (by norm_num)
      rw [← hq, ← h1, Int.neg_tdiv, neg_neg]
  rw [hq]
  refine ⟨?_, ?_, ?_, ?_, ?_, ?_⟩
  · have hw : wrapInt64 q = q := by
      unfold wrapInt64
      rcases le_or_lt 0 d with h | h
      · have := hdef.1 h; omega
      · have := hdef.2 h; omega
    simp [encoderConfig, EncodeDuration, quoInt64, hq, hw]
  · rcases le_or_lt 0 d with h | h
    · have := hdef.1 h
      rw [abs_of_nonneg (by omega), abs_of_nonneg h]; omega
    · have := hdef.2 h
      rw [abs_of_nonpos (by omega), abs_of_neg h]; omega
  · rcases le_or_lt 0 d with h | h
    · have := hdef.1 h
      rw [abs_of_nonneg (by omega)]; omega
    · have := hdef.2 h
      rw [abs_of_nonpos (by omega)]; omega
  · intro h
    have := hdef.1 h; omega
  · intro h
    rcases lt_or_eq_of_le h with h | h
    · have := hdef.2 h; omega
    · have := hdef.1 (by omega); omega
  · intro h
    rcases le_or_lt 0 d with h0 | h0
    · have := hdef.1 h0
      rw [abs_of_nonneg h0] at h; omega
    · have := hdef.2 h0
      rw [abs_of_neg h0] at h; omega

theorem C10_duration_millis_witness :
    encoderConfig.EncodeDuration (-1500000) [] = [Prim.int64 (-1)] ∧
      encoderConfig.EncodeDuration 2999999 [] = [Prim.int64 2] ∧
      encoderConfig.EncodeDuration (-999999) [] = [Prim.int64 0] :=
  ⟨(C10_duration_millis (-1500000) [] (by decide) (by decide)).1,
    (C10_duration_millis 2999999 [] (by decide) (by decide)).1,
    (C10_duration_millis (-999999) [] (by decide) (by decide)).1⟩

/-! ### The time encoder -/

/-- C8: for every time with a year from 0 to 9999 the time encoder appends
the nineteen characters `YYYY-MM-DD HH:MM:SS` (zero-padded decimal fields, one
space, nothing after the seconds), and times that agree on year, month, day,
hour, minute and second are rendered alike whatever their nanosecond and zone. -/
theorem C8_time_encoder_shape (t : Time) (enc : List Prim) (hv : t.Valid)
    (hy0 : 0 ≤ t.year) (hy : t.year ≤ 9999) :
    encoderConfig.EncodeTime t enc =
      enc ++ [Prim.string (stamp t.year.toNat t.month t.day t.hour t.minute t.second)] ∧
    (t.Format timeLayout).length = 19 ∧
    (t.Format timeLayout).map Char.isDigit =
      [true, true, true, true, false, true, true, false, true, true, false,
        true, true, false, true, true, false, true, true] ∧
    (∀ u : Time, u.year = t.year → u.month = t.month → u.day = t.day → u.hour = t.hour →
      u.minute = t.minute → u.second = t.second →
      encoderConfig.EncodeTime u enc = encoderConfig.EncodeTime t enc) := by
  have hs := format_timeLayout_stamp t hv hy0 hy
  obtain ⟨_, hm, _, hd, hh, hmi, hsec, _⟩ := hv
  refine ⟨?_, ?_, ?_, ?_⟩
  · simp [encoderConfig, EncodeTime, hs]
  · rw [hs]; rfl
  · rw [hs]
    exact stamp_isDigit _ _ _ _ _ _ (by omega) (by omega) (by omega) (by omega) (by omega)
      (by omega)
  · intro u h1 h2 h3 h4 h5 h6
    simp only [encoderConfig, EncodeTime, format_timeLayout, h1, h2, h3, h4, h5, h6]

theorem C8_time_encoder_shape_witness :
    encoderConfig.EncodeTime ⟨2026, 11, 4, 9, 5, 7, 123456789, 3600⟩ [] =
      [Prim.string "2026-11-04 09:05:07".toList] ∧
    encoderConfig.EncodeTime ⟨2026, 11, 4, 9, 5, 7, 0, 0⟩ [] =
      [Prim.string "2026-11-04 09:05:07".toList] := by
  have h := C8_time_encoder_shape ⟨2026, 11, 4, 9, 5, 7, 123456789, 3600⟩ []
    (by decide) (by decide) (by decide)
  refine ⟨h.1.trans (by decide), ?_⟩
  rw [h.2.2.2 ⟨2026, 11, 4, 9, 5, 7, 0, 0⟩ rfl rfl rfl rfl rfl rfl]
  exact h.1.trans (by decide)

/-! ### The rotating writer -/

/-- C9 (amended): whenever `getWriter f` builds a sink, whatever the strftime
library makes of the conversions in `f`, its rotation time is one hour (3600 s), its maximum age seven days (604800 s), its link name `f` and its
pattern the compiled `f` followed by `.%Y%m%d%H`; when `f` has no `%` the sink
is built and, for every bucket time with a year from 0 to 9999, the partition
name is `f`, a dot and the ten digits of year, month, day and hour; the two
writers of `SetupLogger` are linked at `logDir+accessLog` and `logDir+errorLog`,
which differ whenever `accessLog` and `errorLog` differ. -/
theorem C9_writer_configuration (rest : StrftimeRest) (f : Str) :
    (Hour = 3600 * Second ∧ Hour * 24 * 7 = 604800 * Second ∧ Second = 1000000000) ∧
    (∀ rl, getWriter rest f = .ok rl →
      rl.rotationTime = 3600 * Second ∧ rl.maxAge = 604800 * Second ∧ rl.linkName = f ∧
        compile rest (f ++ ".%Y%m%d%H".toList) = .ok rl.pattern) ∧
    ('%' ∉ f → ∃ rl, getWriter rest f = .ok rl ∧
      rl.rotationTime = 3600 * Second ∧ rl.maxAge = 604800 * Second ∧ rl.linkName = f ∧
      ∀ base : Time, base.Valid → 0 ≤ base.year → base.year ≤ 9999 →
        rl.genFilename base =
          f ++ '.' :: hourKey base.year.toNat base.month base.day base.hour ∧
        (hourKey base.year.toNat base.month base.day base.hour).length = 10 ∧
        (hourKey base.year.toNat base.month base.day base.hour).all Char.isDigit = true) ∧
    (∀ (dir access error : Str) (logger : Logger),
      SetupLogger rest dir access error = .ok logger →
        logger.cores.map (fun c => c.out.linkName) = [dir ++ access, dir ++ error] ∧
        (access ≠ error → dir ++ access ≠ dir ++ error)) := by
  refine ⟨⟨by decide, by decide, by decide⟩, getWriter_ok_fields rest f, ?_, ?_⟩
  · intro hf
    obtain ⟨rl, hrl, c1, c2, c3, hname⟩ := genFilename_of_plain rest f hf
    refine ⟨rl, hrl, c1, c2, c3, ?_⟩
    intro base hv hy0 hy
    obtain ⟨_, hm, _, hd, hh, _, _, _⟩ := hv
    obtain ⟨y, hyear⟩ : ∃ y : Nat, base.year = (y : Int) :=
      ⟨base.year.toNat, (Int.toNat_of_nonneg hy0).symm⟩
    refine ⟨?_, rfl, hourKey_isDigit _ _ _ _ (by omega) (by omega) (by omega) (by omega)⟩
    rw [hname base, hyear, appendInt_four (n := y) (by omega),
      appendInt_two (n := base.month) (by omega), appendInt_two (n := base.day) (by omega),
      appendInt_two (n := base.hour) (by omega)]
    simp [hourKey]
  · intro dir access error logger h
    unfold SetupLogger at h
    cases h1 : getWriter rest (dir ++ access) with
    | error e => rw [h1] at h; cases h
    | ok iw =>
      cases h2 : getWriter rest (dir ++ error) with
      | error e => rw [h1, h2] at h; cases h
      | ok ww =>
        rw [h1, h2] at h
        cases h
        have l1 := (getWriter_ok_fields rest _ _ h1).2.2.1
        have l2 := (getWriter_ok_fields rest _ _ h2).2.2.1
        refine ⟨by simp [teeCores, l1, l2], ?_⟩
        intro hne heq
        exact hne (List.append_cancel_left heq)

theorem C9_writer_configuration_witness :
    (∃ rl, getWriter refuseRest (logDir ++ accessLog) = .ok rl ∧
      rl.rotationTime = 3600 * Second ∧ rl.maxAge = 604800 * Second ∧
      rl.linkName = "logs/access.log".toList ∧
      rl.genFilename sampleTime = "logs/access.log.2026110414".toList) ∧
    (∃ rl, getWriter refuseRest "demo.log".toList = .ok rl ∧
      rl.genFilename sampleTime = "demo.log.2026110414".toList) := by
  obtain ⟨rl, hrl, c1, c2, c3, h⟩ :=
    (C9_writer_configuration refuseRest (logDir ++ accessLog)).2.2.1 (by decide)
  obtain ⟨rl2, hrl2, _, _, _, h2⟩ :=
    (C9_writer_configuration refuseRest "demo.log".toList).2.2.1 (by decide)
  refine ⟨⟨rl, hrl, c1, c2, c3.trans (by decide), ?_⟩, ⟨rl2, hrl2, ?_⟩⟩
  · rw [(h sampleTime (by decide) (by decide) (by decide)).1]
    decide
  · rw [(h2 sampleTime (by decide) (by decide) (by decide)).1]
    decide

/-- C9 (counterexample): for the base filename `%Y` the sink is built, but the
partition name of the bucket of 4 November 2026, 14:00 is `2026.2026110414`,
which does not start with the base filename; for the base filename `log%`,
whose pattern has the unknown conversion `%.`, no sink is built at all; and for
the base filename `app.log` the key of a bucket in the year 10000 has eleven
digits. -/
theorem C9_counterexample :
    (∃ rl, getWriter refuseRest "%Y".toList = .ok rl ∧
      rl.genFilename sampleTime = "2026.2026110414".toList ∧
      ¬ ("%Y".toList ++ ['.']) <+: rl.genFilename sampleTime) ∧
    getWriter refuseRest "log%".toList = .error "pattern compilation failed" ∧
    (∃ rl, getWriter refuseRest "app.log".toList = .ok rl ∧
      rl.genFilename ⟨10000, 1, 1, 0, 0, 0, 0, 0⟩ = "app.log.10000010100".toList) := by
  refine ⟨⟨_, rfl, by decide, by decide⟩, rfl, ⟨_, rfl, by decide⟩⟩

/-! ### The file system -/

theorem FileSystem.get_erase_same (fs : FileSystem) (p : Str) : (fs.erase p).get p = none := by
  induction fs with
  | nil => rfl
  | cons e r ih =>
    by_cases h : e.1 = p
    · simpa [FileSystem.erase, List.filter, h] using ih
    · have : (FileSystem.erase (e :: r) p) = e :: FileSystem.erase r p := by
        simp [FileSystem.erase, List.filter, h]
      rw [this]
      obtain ⟨q, n⟩ := e
      simp only [FileSystem.get]
      rw [if_neg h]
      exact ih

theorem FileSystem.get_erase_other (fs : FileSystem) (p q : Str) (hq : q ≠ p) :
    (fs.erase p).get q = fs.get q := by
  induction fs with
  | nil => rfl
  | cons e r ih =>
    obtain ⟨k, n⟩ := e
    by_cases h : k = p
    · have : (FileSystem.erase ((k, n) :: r) p) = FileSystem.erase r p := by
        simp [FileSystem.erase, List.filter, h]
      have hk : ¬ k = q := fun e => hq (e.symm.trans h)
      rw [this, ih]
      simp only [FileSystem.get]
      rw [if_neg hk]
    · have : (FileSystem.erase ((k, n) :: r) p) = (k, n) :: FileSystem.erase r p := by
        simp [FileSystem.erase, List.filter, h]
      rw [this]
      simp only [FileSystem.get]
      rw [ih]

theorem FileSystem.get_set_same (fs : FileSystem) (p : Str) (n : Option Node) :
    (fs.set p n).get p = n := by
  cases n with
  | none => exact FileSystem.get_erase_same fs p
  | some n => simp [FileSystem.set, FileSystem.get]

theorem FileSystem.get_set_other (fs : FileSystem) (p q : Str) (n : Option Node) (hq : q ≠ p) :
    (fs.set p n).get q = fs.get q := by
  cases n with
  | none => exact FileSystem.get_erase_other fs p q hq
  | some n =>
    have hp : ¬ p = q := fun e => hq e.symm
    simp only [FileSystem.set, FileSystem.get]
    rw [if_neg hp]
    exact FileSystem.get_erase_other fs p q hq

theorem writeAt_zero (old data : Str) : writeAt old 0 data = data ++ old.drop data.length := by
  simp [writeAt]

theorem Touched.refl (fs : FileSystem) (q p : Str) : Touched fs fs q p := Or.inl rfl

theorem Touched.set_file (fs : FileSystem) (q p : Str) (x : Str) :
    Touched fs (fs.set q (some (.file x))) q p := by
  by_cases h : p = q
  · subst h; exact Or.inr ⟨rfl, x, FileSystem.get_set_same _ _ _⟩
  · exact Or.inl (FileSystem.get_set_other _ _ _ _ h)

theorem Touched.trans {fs fs1 fs2 : FileSystem} {q p : Str}
    (h1 : Touched fs fs1 q p) (h2 : Touched fs1 fs2 q p) : Touched fs fs2 q p := by
  rcases h2 with h2 | h2
  · rcases h1 with h1 | h1
    · exact Or.inl (h2.trans h1)
    · exact Or.inr ⟨h1.1, by rw [h2]; exact h1.2⟩
  · exact Or.inr h2

theorem OpenFile_touched (fs fs1 : FileSystem) (q : Str) (flag perm : Nat) (f : File)
    (h : OpenFile fs q flag perm = .ok (f, fs1)) (p : Str) :
    f = ⟨q, flag, 0⟩ ∧ q ≠ [] ∧ Touched fs fs1 q p := by
  unfold OpenFile at h
  split at h
  · cases h
  · rename_i hq
    split at h
    · split at h
      · cases h; exact ⟨rfl, hq, Touched.refl _ _ _⟩
      · cases h
    · split at h
      · cases h
      · split at h
        · cases h; exact ⟨rfl, hq, Touched.set_file _ _ _ _⟩
        · cases h; exact ⟨rfl, hq, Touched.refl _ _ _⟩
    · split at h
      · cases h
      · split at h
        · cases h
        · split at h
          · cases h; exact ⟨rfl, hq, Touched.set_file _ _ _ _⟩
          · cases h
          · cases h

theorem WriteString_touched (fs : FileSystem) (f : File) (s : Str) (p : Str) :
    Touched fs (WriteString fs f s).1 f.name p := by
  unfold WriteString
  split
  · exact Touched.refl _ _ _
  · split
    · exact Touched.set_file _ _ _ _
    · exact Touched.refl _ _ _

theorem applyOp_cases (fs : FileSystem) (op : LogOp) (p : Str) :
    Touched fs (applyOp fs op) op.path p ∨
      (p = op.path ∧ fs.get p = none ∧ (applyOp fs op).get p = some Node.dir) := by
  cases op with
  | mkdir q =>
    simp only [applyOp, LogOp.path]
    split
    · rename_i h1 h2
      split
      · exact Or.inl (Touched.refl _ _ _)
      · by_cases hp : p = q
        · subst hp
          exact Or.inr ⟨rfl, h1, FileSystem.get_set_same _ _ _⟩
        · exact Or.inl (Or.inl (FileSystem.get_set_other _ _ _ _ hp))
    · exact Or.inl (Touched.refl _ _ _)
  | append q line =>
    simp only [applyOp, LogOp.path]
    split
    · rename_i f fs1 h
      obtain ⟨hf, _, ht⟩ := OpenFile_touched fs fs1 q _ _ f h p
      have hw := WriteString_touched fs1 f line p
      rw [hf] at hw
      rw [hf]
      exact Or.inl (ht.trans hw)
    · exact Or.inl (Touched.refl _ _ _)
  | link a target =>
    simp only [applyOp, LogOp.path]
    split
    · exact Or.inl (Touched.refl _ _ _)
    · split
      · exact Or.inl (Touched.refl _ _ _)
      · exact Or.inl (Touched.set_file _ _ _ _)
    · exact Or.inl (Touched.refl _ _ _)

theorem applyOp_other (fs : FileSystem) (op : LogOp) (p : Str) (h : op.path ≠ p) :
    (applyOp fs op).get p = fs.get p := by
  rcases applyOp_cases fs op p with (h1 | h1) | h1
  · exact h1
  · exact absurd h1.1.symm h
  · exact absurd h1.1.symm h

theorem applyOp_keeps (fs : FileSystem) (op : LogOp) (p : Str) (c : Str)
    (h : fs.get p = some (Node.file c)) :
    ∃ x, (applyOp fs op).get p = some (Node.file x) := by
  rcases applyOp_cases fs op p with (h1 | h1) | h1
  · exact ⟨c, h1.trans h⟩
  · exact h1.2
  · rw [h] at h1; cases h1.2.1

theorem foldl_applyOp_keeps (ops : List LogOp) : ∀ (fs : FileSystem) (p c : Str),
    fs.get p = some (Node.file c) →
    ∃ x, (ops.foldl applyOp fs).get p = some (Node.file x) := by
  induction ops with
  | nil => intro fs p c h; exact ⟨c, h⟩
  | cons op ops ih =>
    intro fs p c h
    obtain ⟨x, hx⟩ := applyOp_keeps fs op p c h
    exact ih _ p x hx

theorem foldl_applyOp_other (ops : List LogOp) : ∀ (fs : FileSystem) (p : Str),
    (∀ op ∈ ops, op.path ≠ p) → (ops.foldl applyOp fs).get p = fs.get p := by
  induction ops with
  | nil => intro fs p _; rfl
  | cons op ops ih =>
    intro fs p h
    have h1 := applyOp_other fs op p (h op (by simp))
    have h2 := ih (applyOp fs op) p (fun o ho => h o (by simp [ho]))
    simpa using h2.trans h1

theorem OpenFile_pid_ok (fs fs0 : FileSystem) (q : Str) (perm : Nat) (f : File)
    (h : OpenFile fs q (O_CREATE ||| O_WRONLY) perm = .ok (f, fs0)) :
    f = ⟨q, O_CREATE ||| O_WRONLY, 0⟩ ∧ q ≠ [] ∧ ∃ c, fs0.get q = some (Node.file c) := by
  have hd : ¬ (((O_CREATE ||| O_WRONLY) &&& 3) = O_RDONLY ∧
      hasFlag (O_CREATE ||| O_WRONLY) O_CREATE = false) := by decide
  unfold OpenFile at h
  repeat' split at h
  all_goals first
    | (cases h; done)
    | exact absurd (by assumption) hd
    | (cases h; exact ⟨rfl, by assumption, [], FileSystem.get_set_same _ _ _⟩)
    | (cases h; exact ⟨rfl, by assumption, _, by assumption⟩)

theorem WriteString_pid (fs : FileSystem) (q : Str) (old s : Str)
    (h : fs.get q = some (Node.file old)) :
    (WriteString fs ⟨q, O_CREATE ||| O_WRONLY, 0⟩ s).1 =
      fs.set q (some (Node.file (s ++ old.drop s.length))) := by
  have hw : ¬ ((O_CREATE ||| O_WRONLY) &&& 3) = O_RDONLY := by decide
  have ha : hasFlag (O_CREATE ||| O_WRONLY) O_APPEND = false := by decide
  simp only [WriteString, hw, if_false, h, ha]
  simp [writeAt_zero]

theorem CreatePidFile_on_file (fs : FileSystem) (path : Str) (logger : ZapLogger) (pid : Int)
    (old : Str) (h : fs.get path = some (Node.file old)) (hp : path ≠ []) :
    PidSetup.CreatePidFile ⟨path⟩ logger pid fs =
      .ok ((logger.Info "Server ".toList [("pid".toList, pid)]).foldl applyOp
        (fs.set path (some (Node.file (SprintfD pid ++ old.drop (SprintfD pid).length))))) := by
  have hc : hasFlag (O_CREATE ||| O_WRONLY) O_CREATE = true := by decide
  have he : hasFlag (O_CREATE ||| O_WRONLY) O_EXCL = false := by decide
  have ht : hasFlag (O_CREATE ||| O_WRONLY) O_TRUNC = false := by decide
  have ho : OpenFile fs path (O_CREATE ||| O_WRONLY) 0o644 =
      .ok (⟨path, O_CREATE ||| O_WRONLY, 0⟩, fs) := by
    simp [OpenFile, hp, h, hc, he, ht]
  simp only [PidSetup.CreatePidFile, ho, WriteString_pid fs path old _ h]

theorem CreatePidFile_on_absent (fs : FileSystem) (path : Str) (logger : ZapLogger) (pid : Int)
    (h : fs.get path = none) (hs : isFileName (basename path) = true)
    (hd : fs.get (dirname path) = some Node.dir) :
    PidSetup.CreatePidFile ⟨path⟩ logger pid fs =
      .ok ((logger.Info "Server ".toList [("pid".toList, pid)]).foldl applyOp
        ((fs.set path (some (Node.file []))).set path (some (Node.file (SprintfD pid))))) := by
  have hc : hasFlag (O_CREATE ||| O_WRONLY) O_CREATE = true := by decide
  have hp : path ≠ [] := by
    intro e
    rw [e] at hs
    exact absurd hs (by decide)
  have ho : OpenFile fs path (O_CREATE ||| O_WRONLY) 0o644 =
      .ok (⟨path, O_CREATE ||| O_WRONLY, 0⟩, fs.set path (some (Node.file []))) := by
    simp [OpenFile, hp, h, hc, hs, hd]
  have hw := WriteString_pid (fs.set path (some (Node.file []))) path [] (SprintfD pid)
    (FileSystem.get_set_same _ _ _)
  simp only [PidSetup.CreatePidFile, ho, hw]
  simp

theorem CreatePidFile_ok_file (fs fs1 : FileSystem) (path : Str) (logger : ZapLogger)
    (pid : Int) (h : PidSetup.CreatePidFile ⟨path⟩ logger pid fs = .ok fs1) :
    path ≠ [] ∧ ∃ c, fs1.get path = some (Node.file c) := by
  unfold PidSetup.CreatePidFile at h
  split at h
  · cases h
  · rename_i f fs0 ho
    obtain ⟨hf, hq, c, hc⟩ := OpenFile_pid_ok fs fs0 path _ f ho
    cases h
    rw [hf, WriteString_pid fs0 path c _ hc]
    exact ⟨hq, foldl_applyOp_keeps _ _ path _ (FileSystem.get_set_same _ _ _)⟩

theorem RemovePidFile_on_file (fs : FileSystem) (path c : Str)
    (h : fs.get path = some (Node.file c)) :
    PidSetup.RemovePidFile ⟨path⟩ fs = .ok (fs.set path none) := by
  simp [PidSetup.RemovePidFile, Remove, h]

theorem RemovePidFile_on_absent (fs : FileSystem) (path : Str) (h : fs.get path = none) :
    PidSetup.RemovePidFile ⟨path⟩ fs = .ok fs ∧ (Remove fs path).2 = some Errno.ENOENT := by
  simp [PidSetup.RemovePidFile, Remove, h]

/-! ### The pid file -/

/-- C3 (amended): a second `CreatePidFile` on the same path right after a first
successful one does not fail with a creation error; it returns normally, for
every path, every pid and every logger. -/
theorem C3_second_create_succeeds (fs fs1 : FileSystem) (path : Str)
    (logger logger2 : ZapLogger) (pid pid2 : Int)
    (h : PidSetup.CreatePidFile ⟨path⟩ logger pid fs = .ok fs1) :
    ∃ fs2, PidSetup.CreatePidFile ⟨path⟩ logger2 pid2 fs1 = .ok fs2 := by
  obtain ⟨hp, c, hc⟩ := CreatePidFile_ok_file fs fs1 path logger pid h
  exact ⟨_, CreatePidFile_on_file fs1 path logger2 pid2 c hc hp⟩

theorem C3_second_create_succeeds_witness :
    ∃ fs1 fs2, PidSetup.CreatePidFile ⟨pidFile⟩ sampleLogger 42 staleFS = .ok fs1 ∧
      PidSetup.CreatePidFile ⟨pidFile⟩ sampleLogger 43 fs1 = .ok fs2 := by
  obtain ⟨fs2, h2⟩ := C3_second_create_succeeds staleFS _ pidFile sampleLogger sampleLogger
    42 43 rfl
  exact ⟨_, fs2, rfl, h2⟩

/-- C3 (counterexample): on a file system with nothing but the working
directory a first `CreatePidFile` of `running.pid` succeeds and leaves the file
present, and a second one on the same path succeeds as well instead of
failing. -/
theorem C3_counterexample :
    ∃ fs1 fs2, PidSetup.CreatePidFile ⟨pidFile⟩ sampleLogger 4242 emptyFS = .ok fs1 ∧
      fs1.get pidFile = some (Node.file "4242".toList) ∧
      PidSetup.CreatePidFile ⟨pidFile⟩ sampleLogger 4242 fs1 = .ok fs2 ∧
      fs2.get pidFile = some (Node.file "4242".toList) := by
  refine ⟨_, _, rfl, by decide, rfl, by decide⟩

/-- C4 (amended): on a path that is absent, whose last component names a file
(it is not empty, `.` or `..`), that lies in an existing directory and is not
written by the logger, `CreatePidFile` returns normally, and afterwards the
file exists and holds exactly the base-10 text of the pid (a minus sign for a
negative number, then the decimal digits, most significant first). -/
theorem C4_create_on_absent (fs : FileSystem) (path : Str) (logger : ZapLogger) (pid : Int)
    (h : fs.get path = none) (hs : isFileName (basename path) = true)
    (hd : fs.get (dirname path) = some Node.dir)
    (hl : ∀ op ∈ logger.Info "Server ".toList [("pid".toList, pid)], op.path ≠ path) :
    ∃ fs1, PidSetup.CreatePidFile ⟨path⟩ logger pid fs = .ok fs1 ∧
      fs1.get path = some (Node.file (SprintfD pid)) ∧
      SprintfD pid =
        (if pid < 0 then ['-'] else []) ++
          (if pid = 0 then ['0'] else ((Nat.digits 10 pid.natAbs).map digitChar).reverse) := by
  refine ⟨_, CreatePidFile_on_absent fs path logger pid h hs hd, ?_, SprintfD_eq_digits pid⟩
  rw [foldl_applyOp_other _ _ path hl]
  exact FileSystem.get_set_same _ _ _

theorem C4_create_on_absent_witness :
    ∃ fs1, PidSetup.CreatePidFile ⟨pidFile⟩ sampleLogger 31337 emptyFS = .ok fs1 ∧
      fs1.get pidFile = some (Node.file "31337".toList) := by
  obtain ⟨fs1, h1, h2, _⟩ := C4_create_on_absent emptyFS pidFile sampleLogger 31337
    (by decide) (by decide) (by decide) (by decide)
  exact ⟨fs1, h1, h2.trans (by decide)⟩

/-- C4 (counterexample): on a file system with nothing but the working
directory, `CreatePidFile` panics for the empty path, for `nodir/running.pid`
and for `..`, none of which is a file of the state; and with a logger that
writes its line to `running.pid` the file holds more than the pid text. -/
theorem C4_counterexample :
    emptyFS.get [] = none ∧
    PidSetup.CreatePidFile ⟨[]⟩ sampleLogger 42 emptyFS = .error "failed to create pid file" ∧
    emptyFS.get "nodir/running.pid".toList = none ∧
    PidSetup.CreatePidFile ⟨"nodir/running.pid".toList⟩ sampleLogger 42 emptyFS =
      .error "failed to create pid file" ∧
    emptyFS.get "..".toList = none ∧
    PidSetup.CreatePidFile ⟨"..".toList⟩ sampleLogger 42 emptyFS =
      .error "failed to create pid file" ∧
    (∃ fs1, PidSetup.CreatePidFile ⟨pidFile⟩ clashLogger 42 emptyFS = .ok fs1 ∧
      fs1.get pidFile ≠ some (Node.file (SprintfD 42))) := by
  refine ⟨rfl, rfl, by decide, rfl, by decide, rfl, ⟨_, rfl, by decide⟩⟩

/-- C5 (failing input): with a stale `running.pid` holding `123456`,
`CreatePidFile` for pid 42 returns normally and leaves `423456` in the file:
the pid text followed by four bytes of the old content. -/
theorem C5_stale_tail_survives :
    ∃ fs1, PidSetup.CreatePidFile ⟨pidFile⟩ sampleLogger 42 staleFS = .ok fs1 ∧
      fs1.get pidFile = some (Node.file "423456".toList) ∧
      fs1.get pidFile ≠ some (Node.file (SprintfD 42)) := by
  refine ⟨_, rfl, by decide, by decide⟩

/-- C6: after a successful `CreatePidFile`, `RemovePidFile` on the same
`PidSetup` returns normally, the path is absent, and the remove step leaves
every other path as it was. -/
theorem C6_remove_after_create (fs fs1 : FileSystem) (path : Str) (logger : ZapLogger)
    (pid : Int) (h : PidSetup.CreatePidFile ⟨path⟩ logger pid fs = .ok fs1) :
    fs1.get path ≠ none ∧
    ∃ fs2, PidSetup.RemovePidFile ⟨path⟩ fs1 = .ok fs2 ∧ fs2.get path = none ∧
      ∀ q, q ≠ path → fs2.get q = fs1.get q := by
  obtain ⟨_, c, hc⟩ := CreatePidFile_ok_file fs fs1 path logger pid h
  refine ⟨by rw [hc]; simp, _, RemovePidFile_on_file fs1 path c hc, ?_, ?_⟩
  · exact FileSystem.get_set_same _ _ _
  · intro q hq
    exact FileSystem.get_set_other _ _ _ _ hq

theorem C6_remove_after_create_witness :
    ∃ fs1, PidSetup.CreatePidFile ⟨pidFile⟩ sampleLogger 42 emptyFS = .ok fs1 ∧
      fs1.get pidFile ≠ none ∧
      ∃ fs2, PidSetup.RemovePidFile ⟨pidFile⟩ fs1 = .ok fs2 ∧ fs2.get pidFile = none ∧
        ∀ q, q ≠ pidFile → fs2.get q = fs1.get q :=
  ⟨_, rfl, C6_remove_after_create emptyFS _ pidFile sampleLogger 42 rfl⟩

/-- C7: `RemovePidFile` returns normally on every file system; on an absent
path it leaves the file system as it is, although `os.Remove` reports an error
there; and running it twice gives the same file system as running it once. -/
theorem C7_remove_never_fails (fs : FileSystem) (path : Str) :
    (∃ fs1, PidSetup.RemovePidFile ⟨path⟩ fs = .ok fs1 ∧
      PidSetup.RemovePidFile ⟨path⟩ fs1 = .ok fs1) ∧
    (fs.get path = none →
      PidSetup.RemovePidFile ⟨path⟩ fs = .ok fs ∧ (Remove fs path).2 = some Errno.ENOENT) := by
  refine ⟨?_, RemovePidFile_on_absent fs path⟩
  cases hg : fs.get path with
  | none => exact ⟨fs, (RemovePidFile_on_absent fs path hg).1, (RemovePidFile_on_absent fs path hg).1⟩
  | some n =>
    cases n with
    | file c =>
      exact ⟨_, RemovePidFile_on_file fs path c hg,
        (RemovePidFile_on_absent _ path (FileSystem.get_set_same _ _ _)).1⟩
    | dir =>
      by_cases hc : hasChild fs path = true
      · have e : PidSetup.RemovePidFile ⟨path⟩ fs = .ok fs := by
          simp [PidSetup.RemovePidFile, Remove, hg, hc]
        exact ⟨fs, e, e⟩
      · have e : PidSetup.RemovePidFile ⟨path⟩ fs = .ok (fs.set path none) := by
          simp [PidSetup.RemovePidFile, Remove, hg, hc]
        exact ⟨_, e, (RemovePidFile_on_absent _ path (FileSystem.get_set_same _ _ _)).1⟩

theorem C7_remove_never_fails_witness :
    PidSetup.RemovePidFile ⟨pidFile⟩ emptyFS = .ok emptyFS ∧
      (Remove emptyFS pidFile).2 = some Errno.ENOENT :=
  (C7_remove_never_fails emptyFS pidFile).2 (by decide)

end ZapDemo
